import Mathlib

/-!
# Verification of `vesc_wheel_controller.cpp` (vesc_hw_interface)

Shallow embedding of `VescWheelController` from
`src/vesc_hw_interface/src/vesc_wheel_controller.cpp`.

Modelling conventions:
* C++ `double` arithmetic is modelled by exact rational arithmetic (`ℚ`).
  Source floating-point literals are embedded as the corresponding exact
  rationals (`0.005 ↦ 1/200`, `0.0001 ↦ 1/10000`, ...).  `M_PI` is embedded
  as the exact value of the IEEE-754 double closest to π.
* `static_cast<uint16_t>(count_in)` (a `double` argument) is modelled as
  truncation toward zero followed by reduction modulo 2^16.
* `static_cast<double>(LONG_MAX)` rounds to 2^63 exactly (LONG_MAX = 2^63 − 1
  is not representable as a double); `static_cast<double>(LONG_MIN)` is −2^63
  exactly.  Both casts are embedded as those doubles' exact values.
* The member arrays `counter_changed_log_[·][0]` (counts),
  `counter_changed_log_[·][1]` (dwells) and `counter_td_tmp_` are modelled as
  lists.  The count-shift loop in the source writes index 10 (one past the
  ten logical slots); the model keeps an 11th entry as that write target,
  which, like in the source, is never read back into any computed value.
* In C++, subtracting two `uint16_t` values promotes both to `int`, so
  `log[0][0] - log[1][0]` is the signed difference of the stored values
  (no wrap at 16 bits); the model computes that signed difference in `ℤ`.
-/

/-- The IEEE-754 double closest to π, as an exact rational (the value of the
`M_PI` literal used by the source). -/
def M_PI : ℚ := 884279719003555 / 281474976710656

/-- Truncation of a rational toward zero (the rounding used by a C++
float-to-integer cast); `Int.tdiv` is T-division. -/
def ratTrunc (q : ℚ) : ℤ := Int.tdiv q.num q.den

/-- Model of `static_cast<uint16_t>(x)` for a `double` argument: truncation
toward zero, then reduction modulo 2^16 (two's-complement wrap). -/
def toUInt16 (q : ℚ) : ℕ :=
  (ratTrunc q % 65536).toNat

/-- Estimator state: the fields of `VescWheelController` used by `counterTD`.

`log_counts` models column 0 of `counter_changed_log_` (11 entries: the ten
logical slots plus the out-of-range write target of the shift loop);
`log_dwells` models column 1 (ten slots; the shift loop does not touch it);
`counter_td_tmp` models the ten-slot derivative history. -/
structure CounterTDState where
  counter_changed_single : ℕ
  log_counts : List ℕ
  log_dwells : List ℕ
  counter_td_tmp : List ℚ
  deriving Repr, DecidableEq

/-- The changed-log update of a non-reset `counterTD` call (lines 152–172):
on a count change, shift the count column down one slot, record the dwell
in slot 0 and restart the counter; otherwise possibly raise slot 0's dwell
and bump the counter (capped at 100). -/
def counterTDUpdate (s : CounterTDState) (c : ℕ) : CounterTDState :=
  if s.log_counts.getD 0 0 ≠ c then
    { s with log_counts := c :: s.log_counts.take 10,
             log_dwells := s.log_dwells.set 0 s.counter_changed_single,
             counter_changed_single := 1 }
  else
    { s with
      log_dwells :=
        if s.counter_changed_single > s.log_dwells.getD 0 0 then
          s.log_dwells.set 0 s.counter_changed_single
        else s.log_dwells,
      counter_changed_single :=
        if s.counter_changed_single < 100 then
          s.counter_changed_single + 1
        else s.counter_changed_single }

/-- Embedding of `VescWheelController::counterTD` (lines 138–186).

Returns the pair (return value, updated estimator state).  The input cast
`static_cast<uint16_t>(count_in)` is hoisted to the top (`c`); the source
performs the identical cast at each use site. -/
def counterTD (s : CounterTDState) (count_in : ℚ) (reset : Bool) :
    ℚ × CounterTDState :=
  let c := toUInt16 count_in
  if reset then
    -- fill the ten logical slots with (c, 100), zero the derivative history
    (0, { counter_changed_single := 1,
          log_counts := List.replicate 10 c ++ s.log_counts.drop 10,
          log_dwells := List.replicate 10 100,
          counter_td_tmp := List.replicate 10 0 })
  else
    let s1 := counterTDUpdate s c
    let diff : ℤ := (s1.log_counts.getD 0 0 : ℤ) - (s1.log_counts.getD 1 0 : ℤ)
    let deriv : ℚ := (diff : ℚ) / (s1.log_dwells.getD 0 0 : ℚ)
    let s2 := { s1 with counter_td_tmp := deriv :: s1.counter_td_tmp.take 9 }
    (if |deriv| > 100 then 0 else deriv, s2)

/-- Outputs of a sequence of `counterTD` calls (each element of `inputs` is a
(count, reset) pair), in call order. -/
def counterTDRun (s : CounterTDState) : List (ℚ × Bool) → List ℚ
  | [] => []
  | p :: rest =>
      (counterTD s p.1 p.2).1 :: counterTDRun (counterTD s p.1 p.2).2 rest

/-- Estimator state after a sequence of `counterTD` calls. -/
def counterTDFold (s : CounterTDState) (inputs : List (ℚ × Bool)) :
    CounterTDState :=
  inputs.foldl (fun t p => (counterTD t p.1 p.2).2) s

/-- A concrete estimator state (used to instantiate universally quantified
statements; the member arrays are uninitialized in the source before the
first reset). -/
def someTDState : CounterTDState :=
  { counter_changed_single := 0,
    log_counts := List.replicate 11 0,
    log_dwells := List.replicate 10 0,
    counter_td_tmp := List.replicate 10 0 }

/-- Truncation agrees with reduction modulo 2^16 on integer-valued inputs. -/
theorem toUInt16_intCast (n : ℤ) : toUInt16 (n : ℚ) = (n % 65536).toNat := by
  simp [toUInt16, ratTrunc]

/-- Evaluation of `toUInt16` on natural-number-valued inputs. -/
theorem toUInt16_natCast (n : ℕ) : toUInt16 (n : ℚ) = n % 65536 := by
  have h : ((n : ℤ) : ℚ) = (n : ℚ) := by push_cast; rfl
  rw [← h, toUInt16_intCast]
  omega

/-- Evaluation of `toUInt16` on rational numerals. -/
theorem toUInt16_ofNat (n : ℕ) [n.AtLeastTwo] :
    toUInt16 (OfNat.ofNat n) = OfNat.ofNat n % 65536 := by
  rw [← Nat.cast_ofNat, toUInt16_natCast]

/-- Evaluation of `toUInt16` on rational numerals elaborated through
`Rat.instOfNat`. -/
theorem toUInt16_ratOfNat (n : ℕ) :
    toUInt16 (@OfNat.ofNat ℚ n Rat.instOfNat) = n % 65536 := by
  show toUInt16 ((n : ℚ)) = _
  rw [toUInt16_natCast]

/-- Evaluation of `toUInt16` at the concrete count 5. -/
theorem toUInt16_eval5 : toUInt16 ((5 : ℤ) : ℚ) = 5 := by
  rw [toUInt16_intCast]; decide

/-- Evaluation of `toUInt16` at the concrete count 11. -/
theorem toUInt16_eval11 : toUInt16 ((11 : ℤ) : ℚ) = 11 := by
  rw [toUInt16_intCast]; decide

/-- Evaluation of `toUInt16` at the concrete count 206. -/
theorem toUInt16_eval206 : toUInt16 ((206 : ℤ) : ℚ) = 206 := by
  rw [toUInt16_intCast]; decide

/-- Evaluation of `toUInt16` at 0. -/
theorem toUInt16_zero : toUInt16 0 = 0 := by
  have h : ((0 : ℕ) : ℚ) = 0 := by push_cast; rfl
  rw [← h, toUInt16_natCast]

/-- Evaluation of `toUInt16` at 1. -/
theorem toUInt16_one : toUInt16 1 = 1 := by
  have h : ((1 : ℕ) : ℚ) = 1 := by push_cast; rfl
  rw [← h, toUInt16_natCast]

example : (counterTD someTDState ((1000 : ℤ) : ℚ) true).1 = 0 := by decide

example :
    (counterTD (counterTD someTDState ((1000 : ℤ) : ℚ) true).2
      ((1000 : ℤ) : ℚ) false).1 = 0 := by
  norm_num [counterTD, counterTDUpdate, toUInt16_intCast, someTDState, List.replicate, List.getD]

/-- Configuration parameters of `VescWheelController` (immutable per tick). -/
structure Config where
  kp : ℚ
  ki : ℚ
  kd : ℚ
  i_clamp : ℚ
  duty_limiter : ℚ
  antiwindup : Bool
  control_rate : ℚ
  num_motor_pole_pairs : ℚ
  deriving Repr, DecidableEq

/-- Mutable fields of `VescWheelController` touched by `control` /
`controlTimerCallback`. -/
structure VescWheelState where
  target_pulse : ℚ
  error : ℚ
  error_dt : ℚ
  error_integ : ℚ
  error_integ_prev : ℚ
  position_sens : ℚ
  velocity_sens : ℚ
  velocity_reference : ℚ
  position_pulse : ℚ
  prev_position_pulse : ℚ
  reset : Bool
  td : CounterTDState
  deriving Repr, DecidableEq

/-- Exact value of `static_cast<double>(LONG_MAX)`: 2^63 − 1 rounds to 2^63. -/
def LONG_MAX_D : ℚ := 9223372036854775808

/-- Exact value of `static_cast<double>(LONG_MIN)`: −2^63 is representable. -/
def LONG_MIN_D : ℚ := -9223372036854775808

/-- The overflow check of `control` (lines 75–83): past the positive double
bound add `(double)LONG_MIN`, past the negative bound add
`(double)LONG_MAX`. -/
def wrapTargetPulse (tp : ℚ) : ℚ :=
  if tp > LONG_MAX_D then tp + LONG_MIN_D
  else if tp < LONG_MIN_D then tp + LONG_MAX_D
  else tp

/-- The error-limit step of `control` (lines 85–93): clamp the target to
within `count_deviation_limit` of the current pulse. -/
def limitTargetPulse (lim cp tp : ℚ) : ℚ :=
  if tp - cp > lim then cp + lim
  else if tp - cp < -lim then cp - lim
  else tp

/-- The anti-windup conditional of `control` (lines 105–122): on saturation,
clamp the duty; if the integral just grew (resp. shrank), roll it back and
recompute the duty from the rolled-back integral.  Returns (duty, integral). -/
def antiwindupAdjust (cfg : Config) (e edt integ integ_prev duty : ℚ) :
    ℚ × ℚ :=
  if duty > cfg.duty_limiter then
    if integ > integ_prev then
      (cfg.kp * e + cfg.ki * integ_prev + cfg.kd * edt, integ_prev)
    else (cfg.duty_limiter, integ)
  else if duty < -cfg.duty_limiter then
    if integ < integ_prev then
      (cfg.kp * e + cfg.ki * integ_prev + cfg.kd * edt, integ_prev)
    else (-cfg.duty_limiter, integ)
  else (duty, integ)

/-- The integral-contribution clamp of `control` (lines 123–130). -/
def iClampAdjust (cfg : Config) (integ : ℚ) : ℚ :=
  if cfg.ki * integ > cfg.i_clamp then cfg.i_clamp / cfg.ki
  else if cfg.ki * integ < -cfg.i_clamp then -cfg.i_clamp / cfg.ki
  else integ

/-- `std::clamp(d, -lim, lim)` as used on line 134. -/
def clampDuty (lim d : ℚ) : ℚ :=
  if d < -lim then -lim else if lim < d then lim else d

namespace VescWheelController

/-- Embedding of `VescWheelController::control` (lines 56–136).

Returns (value passed to `interface_ptr_->setDutyCycle`, updated state). -/
def control (cfg : Config) (s : VescWheelState)
    (target_velocity current_pulse : ℚ) (reset : Bool) : ℚ × VescWheelState :=
  let s0 :=
    if reset then
      { s with target_pulse := current_pulse, error := 0, error_dt := 0,
               error_integ := 0, error_integ_prev := 0,
               td := (counterTD s.td current_pulse true).2 }
    else
      { s with target_pulse := s.target_pulse +
          target_velocity * cfg.num_motor_pole_pairs / (2 * M_PI) /
            cfg.control_rate }
  let tp := limitTargetPulse cfg.num_motor_pole_pairs current_pulse
    (wrapTargetPulse s0.target_pulse)
  let tdres := counterTD s0.td current_pulse false
  let velocity_sens := tdres.1 * 2 * M_PI / cfg.num_motor_pole_pairs *
    cfg.control_rate
  let error_dt := target_velocity - velocity_sens
  let e := tp - current_pulse
  let integ_prev := s0.error_integ
  let integ0 := s0.error_integ + e / cfg.control_rate
  let duty0 := cfg.kp * e + cfg.ki * integ0 + cfg.kd * error_dt
  let dres :=
    if cfg.antiwindup then
      let aw := antiwindupAdjust cfg e error_dt integ0 integ_prev duty0
      (aw.1, iClampAdjust cfg aw.2)
    else (duty0, integ0)
  let duty := clampDuty cfg.duty_limiter dres.1
  (if |target_velocity| < 1/10000 then 0 else duty,
   { s0 with target_pulse := tp, error := e, error_dt := error_dt,
             error_integ := dres.2, error_integ_prev := integ_prev,
             velocity_sens := velocity_sens, td := tdres.2 })

/-- The raw (pre-anti-windup) duty of the tick that produced state `s`,
reconstructed from the stored PID fields: `control` stores `error`,
`error_dt` and the pre-update integral `error_integ_prev`, so the raw duty
`kp·error + ki·(error_integ_prev + error/rate) + kd·error_dt` is a function
of the post-tick state. -/
def rawDutyOf (cfg : Config) (s : VescWheelState) : ℚ :=
  cfg.kp * s.error + cfg.ki * (s.error_integ_prev + s.error / cfg.control_rate)
    + cfg.kd * s.error_dt

/-- Post-tick states of a run of non-reset `control` calls; each element of
`inputs` is a (target velocity, current pulse) pair. -/
def controlTrajectory (cfg : Config) (s : VescWheelState) :
    List (ℚ × ℚ) → List VescWheelState
  | [] => []
  | p :: rest =>
      (control cfg s p.1 p.2 false).2 ::
        controlTrajectory cfg (control cfg s p.1 p.2 false).2 rest

/-- The per-tick pulse delta used by `controlTimerCallback` (line 228),
after the discontinuity check zeroed it if oversized. -/
def tickDiff (cfg : Config) (s : VescWheelState) : ℚ :=
  if |s.position_pulse - s.prev_position_pulse| > cfg.num_motor_pole_pairs / 4
  then 0 else s.position_pulse - s.prev_position_pulse

/-- The reset flag `controlTimerCallback` passes to `control` (lines 229–236):
forced to `true` when the pulse delta exceeds a quarter pole-pair count. -/
def tickReset (cfg : Config) (s : VescWheelState) : Bool :=
  if |s.position_pulse - s.prev_position_pulse| > cfg.num_motor_pole_pairs / 4
  then true else s.reset

/-- Embedding of `VescWheelController::controlTimerCallback` (lines 226–239).

Returns (duty emitted this tick, updated state).  The trailing
`interface_ptr_->requestState()` is an outbound signal with no effect on the
modelled state. -/
def controlTimerCallback (cfg : Config) (s : VescWheelState) :
    ℚ × VescWheelState :=
  let s1 := { s with
    position_sens := s.position_sens +
      tickDiff cfg s / cfg.num_motor_pole_pairs * 2 * M_PI,
    reset := tickReset cfg s }
  let r := control cfg s1 s1.velocity_reference s1.position_pulse s1.reset
  (r.1, { r.2 with reset := decide (|r.2.velocity_reference| < 1/10000) })

end VescWheelController

/-- The configuration of the spec's end-to-end scenario (also the source's
parameter defaults, lines 34–40), with pole pairs = 7. -/
def testConfig : Config :=
  { kp := 1/200, ki := 1/200, kd := 1/400, i_clamp := 1/5, duty_limiter := 1,
    antiwindup := true, control_rate := 50, num_motor_pole_pairs := 7 }

/-- State after `init` (lines 45–51); the estimator buffers are uninitialized
in the source and are taken as zeros here (the first `control` call has
`reset = true`, which overwrites every estimator field that is ever read). -/
def initState : VescWheelState :=
  { target_pulse := 0, error := 0, error_dt := 0, error_integ := 0,
    error_integ_prev := 0, position_sens := 0, velocity_sens := 0,
    velocity_reference := 0, position_pulse := 0, prev_position_pulse := 0,
    reset := true, td := someTDState }

/-- Every value of `clampDuty lim d` has magnitude at most `lim` when the
limit is non-negative. -/
theorem abs_clampDuty_le (lim d : ℚ) (h : 0 ≤ lim) : |clampDuty lim d| ≤ lim := by
  unfold clampDuty
  split_ifs with h1 h2
  · rw [abs_neg, abs_of_nonneg h]
  · rw [abs_of_nonneg h]
  · rw [abs_le]
    constructor <;> linarith

/-- C8 (confirmed): for every configuration, controller state and inputs with
`|targetVelocity| < 0.0001`, the duty `control` passes to
`setDutyCycle` is exactly 0, regardless of the accumulated error and
integral state (source line 135). -/
theorem control_deadband_exact (cfg : Config) (s : VescWheelState)
    (tv cp : ℚ) (r : Bool) (h : |tv| < 1/10000) :
    (VescWheelController.control cfg s tv cp r).1 = 0 := by
  simp only [VescWheelController.control]
  rw [if_pos h]

/-- Witness for `control_deadband_exact` at `targetVelocity = 0`. -/
theorem control_deadband_exact_witness :
    |(0 : ℚ)| < 1/10000 ∧
    (VescWheelController.control testConfig initState 0 1000 false).1 = 0 :=
  ⟨by norm_num,
   control_deadband_exact testConfig initState 0 1000 false (by norm_num)⟩

/-- C9 (confirmed): for every configuration with non-negative duty limit and
every state and inputs, the value `control` passes to `setDutyCycle` has
magnitude at most the duty limit (the final `std::clamp` on line 134, with
the dead-band's 0 trivially in range). -/
theorem control_duty_bounded (cfg : Config) (s : VescWheelState)
    (tv cp : ℚ) (r : Bool) (h : 0 ≤ cfg.duty_limiter) :
    |(VescWheelController.control cfg s tv cp r).1| ≤ cfg.duty_limiter := by
  simp only [VescWheelController.control]
  split
  · simpa using h
  · exact abs_clampDuty_le _ _ h

/-- Witness for `control_duty_bounded` on the end-to-end scenario inputs. -/
theorem control_duty_bounded_witness :
    0 ≤ testConfig.duty_limiter ∧
    |(VescWheelController.control testConfig initState 10 1000 true).1| ≤
      testConfig.duty_limiter :=
  ⟨by norm_num [testConfig],
   control_duty_bounded testConfig initState 10 1000 true
     (by norm_num [testConfig])⟩

/-- C3 counterexample: the overflow correction does not wrap by the full
integer range width (2^64, or 2^64 − 1 as `LONG_MAX − LONG_MIN`): at
`targetPulse = 2^63 + 1` the code yields 1 (it adds `LONG_MIN`, i.e. wraps
by 2^63), not `targetPulse` minus a full range width. -/
theorem wrapTargetPulse_not_full_width :
    wrapTargetPulse (9223372036854775809 : ℚ) = 1 ∧
    wrapTargetPulse (9223372036854775809 : ℚ) ≠
      9223372036854775809 - 18446744073709551616 ∧
    wrapTargetPulse (9223372036854775809 : ℚ) ≠
      9223372036854775809 - 18446744073709551615 := by
  norm_num [wrapTargetPulse, LONG_MAX_D, LONG_MIN_D]

/-- C3 (corrected): past the positive double bound `(double)LONG_MAX = 2^63`
the target pulse is wrapped down by 2^63 = |LONG_MIN| (half the full range
width); the negative bound is symmetric (the code adds
`(double)LONG_MAX`, which also rounds to 2^63); for any overshoot of at
most one wrap width the result is back in the representable range and the
discontinuity equals the wrap width 2^63. -/
theorem wrapTargetPulse_spec (tp : ℚ) (hp : LONG_MAX_D < tp)
    (hr : tp ≤ LONG_MAX_D + 2 ^ 63) :
    wrapTargetPulse tp = tp - 2 ^ 63 ∧
    wrapTargetPulse (-tp) = -tp + 2 ^ 63 ∧
    LONG_MIN_D ≤ wrapTargetPulse tp ∧ wrapTargetPulse tp ≤ LONG_MAX_D ∧
    |wrapTargetPulse tp - tp| = 2 ^ 63 := by
  have e1 : wrapTargetPulse tp = tp - 2 ^ 63 := by
    unfold wrapTargetPulse
    rw [if_pos hp]
    rw [LONG_MIN_D]
    ring
  have e2 : wrapTargetPulse (-tp) = -tp + 2 ^ 63 := by
    unfold wrapTargetPulse
    rw [if_neg, if_pos, LONG_MAX_D]
    · norm_num
    · rw [LONG_MIN_D] at *
      rw [LONG_MAX_D] at hp
      linarith
    · rw [LONG_MAX_D] at hp ⊢
      linarith
  refine ⟨e1, e2, ?_, ?_, ?_⟩
  · rw [e1, LONG_MIN_D]
    rw [LONG_MAX_D] at hp
    linarith
  · rw [e1, LONG_MAX_D] at *
    linarith
  · rw [e1]
    rw [show tp - 2 ^ 63 - tp = -(2 ^ 63) by ring, abs_neg, abs_of_nonneg]
    norm_num

/-- Witness for `wrapTargetPulse_spec` at `targetPulse = 2^63 + 5`. -/
theorem wrapTargetPulse_spec_witness :
    (LONG_MAX_D < (9223372036854775813 : ℚ) ∧
      (9223372036854775813 : ℚ) ≤ LONG_MAX_D + 2 ^ 63) ∧
    (wrapTargetPulse (9223372036854775813 : ℚ) =
        9223372036854775813 - 2 ^ 63 ∧
      wrapTargetPulse (-(9223372036854775813 : ℚ)) =
        -(9223372036854775813 : ℚ) + 2 ^ 63 ∧
      LONG_MIN_D ≤ wrapTargetPulse (9223372036854775813 : ℚ) ∧
      wrapTargetPulse (9223372036854775813 : ℚ) ≤ LONG_MAX_D ∧
      |wrapTargetPulse (9223372036854775813 : ℚ) - 9223372036854775813| =
        2 ^ 63) :=
  ⟨⟨by norm_num [LONG_MAX_D], by norm_num [LONG_MAX_D]⟩,
   wrapTargetPulse_spec 9223372036854775813 (by norm_num [LONG_MAX_D])
     (by norm_num [LONG_MAX_D])⟩

/-- C7 (confirmed): resetting the estimator always returns 0 and leaves the
ten history slots at (rawCount mod 2^16, dwell = 100), the derivative
history zeroed and the since-last-change counter at 1, for every prior
state; a following non-reset call with the same count returns 0. -/
theorem counterTD_reset_idempotent (s : CounterTDState) (c : ℚ) :
    (counterTD s c true).1 = 0 ∧
    (counterTD s c true).2.log_counts.take 10 =
      List.replicate 10 (toUInt16 c) ∧
    (counterTD s c true).2.log_dwells = List.replicate 10 100 ∧
    (counterTD s c true).2.counter_td_tmp = List.replicate 10 0 ∧
    (counterTD s c true).2.counter_changed_single = 1 ∧
    (counterTD (counterTD s c true).2 c false).1 = 0 := by
  refine ⟨rfl, ?_, rfl, rfl, rfl, ?_⟩
  · simp [counterTD, List.take_append_eq_append_take]
  · simp [counterTD, counterTDUpdate, List.replicate_succ]

/-- Estimator calls depend on the count argument only through its 16-bit
image (`static_cast<uint16_t>` happens before any comparison). -/
theorem counterTD_congr (s : CounterTDState) (a b : ℚ) (r : Bool)
    (h : toUInt16 a = toUInt16 b) : counterTD s a r = counterTD s b r := by
  simp only [counterTD, h]

/-- C2 (confirmed): feeding the estimator two tickwise mod-2^16-congruent
raw-count sequences (reset = false each tick) from the same initial state
produces the same derivative magnitude at every tick (in fact the same
derivative). -/
theorem counterTD_wraparound_invariance (s : CounterTDState)
    (xs ys : List ℤ)
    (h : List.Forall₂ (fun a b => a % 65536 = b % 65536) xs ys) :
    (counterTDRun s (xs.map fun x => ((x : ℚ), false))).map (fun q => |q|) =
      (counterTDRun s (ys.map fun y => ((y : ℚ), false))).map fun q => |q| := by
  induction h generalizing s with
  | nil => rfl
  | @cons a b as bs hab htl ih =>
      have key : counterTD s (a : ℚ) false = counterTD s (b : ℚ) false :=
        counterTD_congr s _ _ false
          (by rw [toUInt16_intCast, toUInt16_intCast, hab])
      simp only [List.map_cons, counterTDRun, key]
      exact congrArg _ (ih _)

/-- Witness for `counterTD_wraparound_invariance`: the wrapping sequence
65535 → 0 against the unwrapped 65535 → 65536. -/
theorem counterTD_wraparound_invariance_witness :
    List.Forall₂ (fun a b : ℤ => a % 65536 = b % 65536)
      [65535, 0] [65535, 65536] ∧
    (counterTDRun someTDState
        (([65535, 0] : List ℤ).map fun x => ((x : ℚ), false))).map
        (fun q => |q|) =
      (counterTDRun someTDState
          (([65535, 65536] : List ℤ).map fun y => ((y : ℚ), false))).map
        fun q => |q| :=
  ⟨.cons (by decide) (.cons (by decide) .nil),
   counterTD_wraparound_invariance someTDState [65535, 0] [65535, 65536]
     (.cons (by decide) (.cons (by decide) .nil))⟩

/-- Invariant of the estimator state: the since-last-change counter is in
[1, 100], the dwell column has its ten slots, and every stored dwell is at
least 1. -/
def TDInv (s : CounterTDState) : Prop :=
  1 ≤ s.counter_changed_single ∧ s.counter_changed_single ≤ 100 ∧
    s.log_dwells.length = 10 ∧ ∀ d ∈ s.log_dwells, 1 ≤ d

/-- Dwell column of a reset call. -/
theorem counterTD_true_dwells (s : CounterTDState) (c : ℚ) :
    (counterTD s c true).2.log_dwells = List.replicate 10 100 := rfl

/-- Since-last-change counter of a reset call. -/
theorem counterTD_true_single (s : CounterTDState) (c : ℚ) :
    (counterTD s c true).2.counter_changed_single = 1 := rfl

/-- Dwell column of a non-reset call agrees with `counterTDUpdate`. -/
theorem counterTD_false_dwells (s : CounterTDState) (c : ℚ) :
    (counterTD s c false).2.log_dwells =
      (counterTDUpdate s (toUInt16 c)).log_dwells := rfl

/-- Since-last-change counter of a non-reset call agrees with
`counterTDUpdate`. -/
theorem counterTD_false_single (s : CounterTDState) (c : ℚ) :
    (counterTD s c false).2.counter_changed_single =
      (counterTDUpdate s (toUInt16 c)).counter_changed_single := rfl

/-- A reset establishes the estimator invariant. -/
theorem tdInv_reset (s : CounterTDState) (c : ℚ) :
    TDInv (counterTD s c true).2 := by
  refine ⟨?_, ?_, ?_, ?_⟩
  · rw [counterTD_true_single]
  · rw [counterTD_true_single]; omega
  · rw [counterTD_true_dwells]; simp
  · rw [counterTD_true_dwells]
    intro d hd
    rw [List.mem_replicate] at hd
    omega

/-- The changed-log update preserves the estimator invariant. -/
theorem tdInv_update (s : CounterTDState) (c : ℕ) (h : TDInv s) :
    TDInv (counterTDUpdate s c) := by
  obtain ⟨h1, h2, h3, h4⟩ := h
  unfold counterTDUpdate TDInv
  split
  · refine ⟨le_refl 1, by dsimp only; omega, by simpa using h3, ?_⟩
    dsimp only
    intro d hd
    rcases List.mem_or_eq_of_mem_set hd with hmem | heq
    · exact h4 d hmem
    · omega
  · refine ⟨?_, ?_, ?_, ?_⟩
    · dsimp only
      split <;> omega
    · dsimp only
      split <;> omega
    · dsimp only
      split
      · simpa using h3
      · exact h3
    · dsimp only
      intro d hd
      split at hd
      · rcases List.mem_or_eq_of_mem_set hd with hmem | heq
        · exact h4 d hmem
        · omega
      · exact h4 d hd

/-- Every estimator call preserves the estimator invariant. -/
theorem tdInv_step (s : CounterTDState) (c : ℚ) (r : Bool) (h : TDInv s) :
    TDInv (counterTD s c r).2 := by
  cases r with
  | true => exact tdInv_reset s c
  | false =>
      have hu := tdInv_update s (toUInt16 c) h
      exact ⟨by rw [counterTD_false_single]; exact hu.1,
             by rw [counterTD_false_single]; exact hu.2.1,
             by rw [counterTD_false_dwells]; exact hu.2.2.1,
             by rw [counterTD_false_dwells]; exact hu.2.2.2⟩

/-- The estimator invariant holds after any sequence of calls from an
invariant-satisfying state. -/
theorem tdInv_fold (s : CounterTDState) (inputs : List (ℚ × Bool))
    (h : TDInv s) : TDInv (counterTDFold s inputs) := by
  induction inputs generalizing s with
  | nil => exact h
  | cons p rest ih =>
      simp only [counterTDFold, List.foldl_cons]
      exact ih _ (tdInv_step s p.1 p.2 h)

/-- C10 (confirmed): after any call sequence that begins with a reset (as in
the running system, where `init` forces the first `control` call to reset
the estimator), the since-last-change counter lies in [1, 100], every
stored dwell is at least 1, and slot 0's dwell — the divisor of the
derivative computation — is never zero. -/
theorem counterTD_divisor_never_zero (s : CounterTDState) (c : ℚ)
    (inputs : List (ℚ × Bool)) :
    1 ≤ (counterTDFold (counterTD s c true).2 inputs).counter_changed_single ∧
    (counterTDFold (counterTD s c true).2 inputs).counter_changed_single ≤
      100 ∧
    (∀ d ∈ (counterTDFold (counterTD s c true).2 inputs).log_dwells,
      1 ≤ d) ∧
    (counterTDFold (counterTD s c true).2 inputs).log_dwells.getD 0 0 ≠ 0 := by
  obtain ⟨h1, h2, h3, h4⟩ := tdInv_fold _ inputs (tdInv_reset s c)
  refine ⟨h1, h2, h4, ?_⟩
  cases hcons : (counterTDFold (counterTD s c true).2 inputs).log_dwells with
  | nil => rw [hcons] at h3; simp at h3
  | cons a t =>
      have ha := h4 a (by rw [hcons]; exact List.mem_cons_self a t)
      simp only [List.getD_cons_zero]
      omega

/-- Duty produced by `control` never modifies the accumulated position
estimate: `position_sens_` is only written by `controlTimerCallback`. -/
theorem control_position_sens (cfg : Config) (s : VescWheelState)
    (tv cp : ℚ) (r : Bool) :
    (VescWheelController.control cfg s tv cp r).2.position_sens =
      s.position_sens := by
  cases r <;> rfl

/-- C5 (confirmed): when the per-tick pulse delta's magnitude exceeds one
quarter of the pole-pair count, the delta is zeroed for the tick
(`positionSens` is unchanged by the callback) and `control` is invoked
with the reset flag forced to true (`tickReset` is exactly the flag the
callback passes).  The tick is a total function of the state, so no error
propagates to the caller. -/
theorem callback_discontinuity_selfheal (cfg : Config) (s : VescWheelState)
    (h : |s.position_pulse - s.prev_position_pulse| >
      cfg.num_motor_pole_pairs / 4) :
    VescWheelController.tickDiff cfg s = 0 ∧
    VescWheelController.tickReset cfg s = true ∧
    (VescWheelController.controlTimerCallback cfg s).2.position_sens =
      s.position_sens := by
  have hd : VescWheelController.tickDiff cfg s = 0 := by
    unfold VescWheelController.tickDiff
    rw [if_pos h]
  have hr : VescWheelController.tickReset cfg s = true := by
    unfold VescWheelController.tickReset
    rw [if_pos h]
  refine ⟨hd, hr, ?_⟩
  simp only [VescWheelController.controlTimerCallback]
  rw [control_position_sens]
  dsimp only
  rw [hd]
  simp

/-- A concrete state with a 10-pulse jump between consecutive ticks. -/
def jumpState : VescWheelState := { initState with position_pulse := 10 }

/-- Witness for `callback_discontinuity_selfheal` with pole pairs 7
(quarter = 1.75) and a 10-pulse jump. -/
theorem callback_discontinuity_selfheal_witness :
    (|jumpState.position_pulse - jumpState.prev_position_pulse| >
      testConfig.num_motor_pole_pairs / 4) ∧
    (VescWheelController.tickDiff testConfig jumpState = 0 ∧
      VescWheelController.tickReset testConfig jumpState = true ∧
      (VescWheelController.controlTimerCallback testConfig
          jumpState).2.position_sens = jumpState.position_sens) :=
  ⟨by norm_num [jumpState, initState, testConfig],
   callback_discontinuity_selfheal testConfig jumpState
     (by norm_num [jumpState, initState, testConfig])⟩

/-- Count column of a non-reset call agrees with `counterTDUpdate`. -/
theorem counterTD_false_counts (s : CounterTDState) (c : ℚ) :
    (counterTD s c false).2.log_counts =
      (counterTDUpdate s (toUInt16 c)).log_counts := rfl

/-- Return value of a non-reset call, written in terms of
`counterTDUpdate` (definitionally, the derivative of the updated log). -/
theorem counterTD_false_fst (t : CounterTDState) (cq : ℚ) :
    (counterTD t cq false).1 =
      if |((((counterTDUpdate t (toUInt16 cq)).log_counts.getD 0 0 : ℤ) -
              ((counterTDUpdate t (toUInt16 cq)).log_counts.getD 1 0 : ℤ) :
              ℤ) : ℚ) /
            ((counterTDUpdate t (toUInt16 cq)).log_dwells.getD 0 0 : ℚ)| >
          100
      then 0
      else ((((counterTDUpdate t (toUInt16 cq)).log_counts.getD 0 0 : ℤ) -
              ((counterTDUpdate t (toUInt16 cq)).log_counts.getD 1 0 : ℤ) :
              ℤ) : ℚ) /
            ((counterTDUpdate t (toUInt16 cq)).log_dwells.getD 0 0 : ℚ) := rfl

/-- Slot 0 of a list after a slot-0 write. -/
theorem getD_set_zero (l : List ℕ) (v : ℕ) (h : l ≠ []) :
    (l.set 0 v).getD 0 0 = v := by
  cases l with
  | nil => exact absurd rfl h
  | cons a t => rfl

/-- Slot 0 of a truncated log equals slot 0 of the log. -/
theorem getD_take_zero (l : List ℕ) : (l.take 10).getD 0 0 = l.getD 0 0 := by
  cases l <;> rfl

/-- State after a count-change tick. -/
theorem counterTD_change_state (t : CounterTDState) (cq : ℚ)
    (h : t.log_counts.getD 0 0 ≠ toUInt16 cq) :
    (counterTD t cq false).2.log_counts =
        toUInt16 cq :: t.log_counts.take 10 ∧
    (counterTD t cq false).2.counter_changed_single = 1 ∧
    (counterTD t cq false).2.log_dwells =
        t.log_dwells.set 0 t.counter_changed_single := by
  refine ⟨?_, ?_, ?_⟩
  · rw [counterTD_false_counts]
    unfold counterTDUpdate
    rw [if_pos h]
  · rw [counterTD_false_single]
    unfold counterTDUpdate
    rw [if_pos h]
  · rw [counterTD_false_dwells]
    unfold counterTDUpdate
    rw [if_pos h]

/-- Folding over a cons. -/
theorem counterTDFold_cons (t : CounterTDState) (p : ℚ × Bool)
    (rest : List (ℚ × Bool)) :
    counterTDFold t (p :: rest) = counterTDFold (counterTD t p.1 p.2).2 rest :=
  rfl

/-- During a dwell phase (same count fed repeatedly, no reset) the count log
is unchanged, the since-last-change counter advances one per tick (staying
within the 100 cap), and the dwell column keeps its length. -/
theorem counterTD_dwell_fold (c : ℚ) (k : ℕ) :
    ∀ t : CounterTDState, t.log_counts.getD 0 0 = toUInt16 c →
      t.counter_changed_single + k ≤ 100 →
      (counterTDFold t (List.replicate k (c, false))).log_counts =
          t.log_counts ∧
      (counterTDFold t (List.replicate k (c, false))).counter_changed_single =
          t.counter_changed_single + k ∧
      (counterTDFold t (List.replicate k (c, false))).log_dwells.length =
          t.log_dwells.length := by
  induction k with
  | zero => exact fun t h1 h2 => ⟨rfl, rfl, rfl⟩
  | succ k ih =>
      intro t h1 h2
      have hcounts : (counterTD t c false).2.log_counts = t.log_counts := by
        rw [counterTD_false_counts]
        unfold counterTDUpdate
        rw [if_neg (not_not_intro h1)]
      have hsingle : (counterTD t c false).2.counter_changed_single =
          t.counter_changed_single + 1 := by
        rw [counterTD_false_single]
        unfold counterTDUpdate
        rw [if_neg (not_not_intro h1)]
        dsimp only
        rw [if_pos (by omega)]
      have hdlen : (counterTD t c false).2.log_dwells.length =
          t.log_dwells.length := by
        rw [counterTD_false_dwells]
        unfold counterTDUpdate
        rw [if_neg (not_not_intro h1)]
        dsimp only
        split
        · exact List.length_set ..
        · rfl
      rw [List.replicate_succ, counterTDFold_cons]
      obtain ⟨ih1, ih2, ih3⟩ := ih (counterTD t c false).2
        (by rw [hcounts]; exact h1) (by omega)
      exact ⟨by rw [ih1, hcounts], by rw [ih2, hsingle]; omega,
             by rw [ih3, hdlen]⟩

/-- Slot 1 of a cons is slot 0 of the tail. -/
theorem getD_cons_one (a : ℕ) (l : List ℕ) : (a :: l).getD 1 0 = l.getD 0 0 :=
  rfl

/-- C6 counterexample: the claim fails without a bound on Δ.  After a change
to count 5 dwelling one tick, a change by Δ = 201 (N = 1) makes the code
return 0 — the sanity clamp of line 181 fires at |Δ/N| > 100 — not
Δ/N = 201. -/
theorem counterTD_dwell_clamped :
    (counterTD (counterTDFold someTDState
        (List.replicate 1 (((5 : ℤ) : ℚ), false))) ((206 : ℤ) : ℚ)
        false).1 = 0 ∧
    (0 : ℚ) ≠ 201 / 1 := by
  constructor
  · simp only [counterTDFold, List.replicate, List.foldl_cons,
      List.foldl_nil, counterTD, counterTDUpdate, toUInt16_eval5,
      toUInt16_eval206, someTDState]
    norm_num [List.getD]
  · norm_num

/-- C6 (corrected): if, starting from a state about to observe a change to
count `c`, the count holds at `c` for `n` ticks (1 ≤ n ≤ 100, reset =
false each tick) and then changes by `Δ` at the 16-bit width, the
derivative returned at the change tick is exactly `Δ/n` — provided
`|Δ| ≤ 100·n`; beyond that the sanity clamp (line 181) returns 0. -/
theorem counterTD_dwell_derivative (s : CounterTDState) (c cNew : ℚ)
    (n : ℕ) (Δ : ℤ)
    (h1 : 1 ≤ n) (h2 : n ≤ 100)
    (hm : s.log_counts.getD 0 0 ≠ toUInt16 c)
    (hlen : s.log_dwells ≠ [])
    (hne : toUInt16 cNew ≠ toUInt16 c)
    (hd : (toUInt16 cNew : ℤ) - (toUInt16 c : ℤ) = Δ)
    (hbound : |Δ| ≤ 100 * n) :
    (counterTD (counterTDFold s (List.replicate n (c, false))) cNew
        false).1 = (Δ : ℚ) / (n : ℚ) := by
  obtain ⟨k, rfl⟩ : ∃ k, n = k + 1 := ⟨n - 1, by omega⟩
  rw [List.replicate_succ, counterTDFold_cons]
  dsimp only
  obtain ⟨hc1, hs1, hw1⟩ := counterTD_change_state s c hm
  have ht0 : (counterTD s c false).2.log_counts.getD 0 0 = toUInt16 c := by
    rw [hc1]
    exact List.getD_cons_zero
  obtain ⟨hTc, hTs, hTl⟩ :=
    counterTD_dwell_fold c k (counterTD s c false).2 ht0
      (by rw [hs1]; omega)
  set T := counterTDFold (counterTD s c false).2 (List.replicate k (c, false))
    with hT
  have hT0 : T.log_counts.getD 0 0 = toUInt16 c := by rw [hTc]; exact ht0
  have hTsingle : T.counter_changed_single = k + 1 := by
    rw [hTs, hs1]
    omega
  have hTd : T.log_dwells ≠ [] := by
    intro hnil
    have hlen10 := hTl
    rw [hnil, hw1] at hlen10
    simp only [List.length_nil, List.length_set] at hlen10
    exact hlen (List.eq_nil_of_length_eq_zero hlen10.symm)
  have hneT : T.log_counts.getD 0 0 ≠ toUInt16 cNew := by
    rw [hT0]
    exact fun hh => hne hh.symm
  have hupd : counterTDUpdate T (toUInt16 cNew) =
      { T with log_counts := toUInt16 cNew :: T.log_counts.take 10,
               log_dwells := T.log_dwells.set 0 T.counter_changed_single,
               counter_changed_single := 1 } := by
    unfold counterTDUpdate
    rw [if_pos hneT]
  have hg0 : (counterTDUpdate T (toUInt16 cNew)).log_counts.getD 0 0 =
      toUInt16 cNew := by
    rw [hupd]
    dsimp only
    exact List.getD_cons_zero
  have hg1 : (counterTDUpdate T (toUInt16 cNew)).log_counts.getD 1 0 =
      toUInt16 c := by
    rw [hupd]
    dsimp only
    rw [getD_cons_one, getD_take_zero]
    exact hT0
  have hgw : ((counterTDUpdate T (toUInt16 cNew)).log_dwells.getD 0 0 : ℚ) =
      ((k : ℚ) + 1) := by
    rw [hupd]
    dsimp only
    rw [getD_set_zero _ _ hTd, hTsingle]
    push_cast
    ring
  have hderiv :
      ((((counterTDUpdate T (toUInt16 cNew)).log_counts.getD 0 0 : ℤ) -
          ((counterTDUpdate T (toUInt16 cNew)).log_counts.getD 1 0 : ℤ) :
          ℤ) : ℚ) /
        ((counterTDUpdate T (toUInt16 cNew)).log_dwells.getD 0 0 : ℚ) =
      (Δ : ℚ) / ((k : ℚ) + 1) := by
    rw [hg0, hg1, hgw, hd]
  have hnpos : (0 : ℚ) < (k : ℚ) + 1 := by positivity
  have hnoclamp : ¬ (|(Δ : ℚ) / ((k : ℚ) + 1)| > 100) := by
    rw [not_lt, abs_div, abs_of_pos hnpos, div_le_iff₀ hnpos]
    have h100 : |(Δ : ℚ)| ≤ 100 * ((k : ℚ) + 1) := by
      rw [← Int.cast_abs]
      exact_mod_cast hbound
    exact h100
  rw [counterTD_false_fst, hderiv, if_neg hnoclamp]
  push_cast
  ring

/-- Second component of the anti-windup conditional under positive
saturation: the resulting integral never exceeds the pre-update value. -/
theorem antiwindupAdjust_snd_le (cfg : Config) (e edt i0 ip d0 : ℚ)
    (hsat : cfg.duty_limiter < d0) :
    (antiwindupAdjust cfg e edt i0 ip d0).2 ≤ ip := by
  unfold antiwindupAdjust
  rw [if_pos hsat]
  split
  · exact le_refl ip
  · rename_i hno
    exact le_of_not_lt hno

/-- The integral-contribution clamp cannot raise the integral above a value
that already respects the lower clamp, and its result respects the lower
clamp. -/
theorem iClampAdjust_le (cfg : Config) (x ip : ℚ) (hki : 0 < cfg.ki)
    (hic : 0 ≤ cfg.i_clamp) (hlow : -cfg.i_clamp ≤ cfg.ki * ip)
    (hx : x ≤ ip) :
    iClampAdjust cfg x ≤ ip ∧ -cfg.i_clamp ≤ cfg.ki * iClampAdjust cfg x := by
  unfold iClampAdjust
  split_ifs with hgt hlt
  · constructor
    · rw [div_le_iff₀ hki]
      nlinarith
    · rw [mul_comm, div_mul_cancel₀ _ (ne_of_gt hki)]
      linarith
  · constructor
    · rw [div_le_iff₀ hki]
      nlinarith
    · rw [mul_comm, neg_div, neg_mul, div_mul_cancel₀ _ (ne_of_gt hki)]
  · exact ⟨hx, le_of_not_lt hlt⟩

/-- Stored integral of a saturated non-reset anti-windup tick: the tick
stores `iClampAdjust (antiwindupAdjust …).2`, with the raw duty equal to
`rawDutyOf` of the post-state. -/
theorem control_false_integ (cfg : Config) (s : VescWheelState) (tv cp : ℚ)
    (haw : cfg.antiwindup = true) :
    (VescWheelController.control cfg s tv cp false).2.error_integ =
      iClampAdjust cfg
        (antiwindupAdjust cfg
          (VescWheelController.control cfg s tv cp false).2.error
          (VescWheelController.control cfg s tv cp false).2.error_dt
          (s.error_integ +
            (VescWheelController.control cfg s tv cp false).2.error /
              cfg.control_rate)
          s.error_integ
          (VescWheelController.rawDutyOf cfg
            (VescWheelController.control cfg s tv cp false).2)).2 := by
  simp only [VescWheelController.control, VescWheelController.rawDutyOf, haw,
    if_true, Bool.false_eq_true, if_false]

/-- One saturated tick of the anti-windup controller: if the raw duty
exceeds the (positive-direction) limit, the stored integral does not grow
and keeps respecting the lower integral clamp. -/
theorem control_tick_integ (cfg : Config) (s : VescWheelState) (tv cp : ℚ)
    (haw : cfg.antiwindup = true) (hki : 0 < cfg.ki) (hic : 0 ≤ cfg.i_clamp)
    (hlow : -cfg.i_clamp ≤ cfg.ki * s.error_integ)
    (hsat : cfg.duty_limiter <
      VescWheelController.rawDutyOf cfg
        (VescWheelController.control cfg s tv cp false).2) :
    (VescWheelController.control cfg s tv cp false).2.error_integ ≤
        s.error_integ ∧
    -cfg.i_clamp ≤ cfg.ki *
        (VescWheelController.control cfg s tv cp false).2.error_integ := by
  rw [control_false_integ cfg s tv cp haw]
  exact iClampAdjust_le cfg _ s.error_integ hki hic hlow
    (antiwindupAdjust_snd_le cfg _ _ _ _ _ hsat)

/-- Membership in a trajectory cons. -/
theorem controlTrajectory_cons (cfg : Config) (s : VescWheelState)
    (p : ℚ × ℚ) (rest : List (ℚ × ℚ)) :
    VescWheelController.controlTrajectory cfg s (p :: rest) =
      (VescWheelController.control cfg s p.1 p.2 false).2 ::
        VescWheelController.controlTrajectory cfg
          (VescWheelController.control cfg s p.1 p.2 false).2 rest := rfl

/-- Positive-saturation run: with anti-windup on (ki > 0, iClamp ≥ 0, the
starting integral above the lower clamp — automatic after any anti-windup
tick), a run of non-reset ticks each ending with positive error and raw
duty beyond the duty limit keeps `errorIntegral` at or below its starting
value. -/
theorem antiwindup_run_pos (cfg : Config) (s0 : VescWheelState)
    (inputs : List (ℚ × ℚ))
    (haw : cfg.antiwindup = true) (hki : 0 < cfg.ki) (hic : 0 ≤ cfg.i_clamp)
    (hlow : -cfg.i_clamp ≤ cfg.ki * s0.error_integ)
    (hsat : ∀ t ∈ VescWheelController.controlTrajectory cfg s0 inputs,
      0 < t.error ∧
        cfg.duty_limiter < VescWheelController.rawDutyOf cfg t) :
    ∀ t ∈ VescWheelController.controlTrajectory cfg s0 inputs,
      t.error_integ ≤ s0.error_integ := by
  induction inputs generalizing s0 with
  | nil =>
      intro t ht
      simp only [VescWheelController.controlTrajectory] at ht
      exact absurd ht (List.not_mem_nil t)
  | cons p rest ih =>
      intro t ht
      rw [controlTrajectory_cons] at ht hsat
      have hpost := hsat _ (List.mem_cons_self _ _)
      obtain ⟨hstep, hlow'⟩ :=
        control_tick_integ cfg s0 p.1 p.2 haw hki hic hlow hpost.2
      rcases List.mem_cons.mp ht with rfl | htail
      · exact hstep
      · have := ih _ hlow' (fun u hu => hsat u (List.mem_cons_of_mem _ hu))
          t htail
        exact le_trans this hstep

/-- Second component of the anti-windup conditional under negative
saturation (with a non-negative duty limit so the positive branch cannot
also trigger): the resulting integral never drops below the pre-update
value. -/
theorem antiwindupAdjust_snd_ge (cfg : Config) (e edt i0 ip d0 : ℚ)
    (hdl : 0 ≤ cfg.duty_limiter) (hnsat : d0 < -cfg.duty_limiter) :
    ip ≤ (antiwindupAdjust cfg e edt i0 ip d0).2 := by
  unfold antiwindupAdjust
  rw [if_neg (not_lt.mpr (by linarith)), if_pos hnsat]
  split
  · exact le_refl ip
  · rename_i hno
    exact le_of_not_lt hno

/-- The integral-contribution clamp cannot drop the integral below a value
that already respects the upper clamp, and its result respects the upper
clamp. -/
theorem iClampAdjust_ge (cfg : Config) (x ip : ℚ) (hki : 0 < cfg.ki)
    (hic : 0 ≤ cfg.i_clamp) (hup : cfg.ki * ip ≤ cfg.i_clamp)
    (hx : ip ≤ x) :
    ip ≤ iClampAdjust cfg x ∧ cfg.ki * iClampAdjust cfg x ≤ cfg.i_clamp := by
  unfold iClampAdjust
  split_ifs with hgt hlt
  · constructor
    · rw [le_div_iff₀ hki]
      nlinarith
    · rw [mul_comm, div_mul_cancel₀ _ (ne_of_gt hki)]
  · constructor
    · rw [le_div_iff₀ hki]
      nlinarith
    · rw [mul_comm, neg_div, neg_mul, div_mul_cancel₀ _ (ne_of_gt hki)]
      linarith
  · exact ⟨hx, le_of_not_lt hgt⟩

/-- One negatively saturated tick of the anti-windup controller: if the raw
duty is below the negative limit, the stored integral does not shrink and
keeps respecting the upper integral clamp. -/
theorem control_tick_integ_neg (cfg : Config) (s : VescWheelState)
    (tv cp : ℚ)
    (haw : cfg.antiwindup = true) (hki : 0 < cfg.ki) (hic : 0 ≤ cfg.i_clamp)
    (hdl : 0 ≤ cfg.duty_limiter)
    (hup : cfg.ki * s.error_integ ≤ cfg.i_clamp)
    (hnsat : VescWheelController.rawDutyOf cfg
        (VescWheelController.control cfg s tv cp false).2 <
      -cfg.duty_limiter) :
    s.error_integ ≤
        (VescWheelController.control cfg s tv cp false).2.error_integ ∧
    cfg.ki *
        (VescWheelController.control cfg s tv cp false).2.error_integ ≤
      cfg.i_clamp := by
  rw [control_false_integ cfg s tv cp haw]
  exact iClampAdjust_ge cfg _ s.error_integ hki hic hup
    (antiwindupAdjust_snd_ge cfg _ _ _ _ _ hdl hnsat)

/-- Negative-saturation run: mirror of `antiwindup_run_pos`. -/
theorem antiwindup_run_neg (cfg : Config) (s0 : VescWheelState)
    (inputs : List (ℚ × ℚ))
    (haw : cfg.antiwindup = true) (hki : 0 < cfg.ki) (hic : 0 ≤ cfg.i_clamp)
    (hdl : 0 ≤ cfg.duty_limiter)
    (hup : cfg.ki * s0.error_integ ≤ cfg.i_clamp)
    (hsat : ∀ t ∈ VescWheelController.controlTrajectory cfg s0 inputs,
      t.error < 0 ∧
        VescWheelController.rawDutyOf cfg t < -cfg.duty_limiter) :
    ∀ t ∈ VescWheelController.controlTrajectory cfg s0 inputs,
      s0.error_integ ≤ t.error_integ := by
  induction inputs generalizing s0 with
  | nil =>
      intro t ht
      simp only [VescWheelController.controlTrajectory] at ht
      exact absurd ht (List.not_mem_nil t)
  | cons p rest ih =>
      intro t ht
      rw [controlTrajectory_cons] at ht hsat
      have hpost := hsat _ (List.mem_cons_self _ _)
      obtain ⟨hstep, hup'⟩ :=
        control_tick_integ_neg cfg s0 p.1 p.2 haw hki hic hdl hup hpost.2
      rcases List.mem_cons.mp ht with rfl | htail
      · exact hstep
      · have := ih _ hup' (fun u hu => hsat u (List.mem_cons_of_mem _ hu))
          t htail
        exact le_trans hstep this

/-- C4 (confirmed): with anti-windup enabled (ki > 0, iClamp ≥ 0), both
directions of the containment hold for runs of non-reset ticks.
Positive direction: if the starting integral respects the lower clamp
(automatic after any anti-windup tick) and every tick ends with positive
error and raw duty beyond the duty limit (the formalization of "output
saturated with a sustained large positive error"), `errorIntegral` stays
at or below its value when saturation first occurred.  Symmetrically in
the negative direction (with the duty limit non-negative so the negative
saturation branch is the one taken): it stays at or above. -/
theorem antiwindup_containment (cfg : Config) (s0 : VescWheelState)
    (inputs : List (ℚ × ℚ))
    (haw : cfg.antiwindup = true) (hki : 0 < cfg.ki)
    (hic : 0 ≤ cfg.i_clamp) :
    ((-cfg.i_clamp ≤ cfg.ki * s0.error_integ) →
      (∀ t ∈ VescWheelController.controlTrajectory cfg s0 inputs,
        0 < t.error ∧
          cfg.duty_limiter < VescWheelController.rawDutyOf cfg t) →
      ∀ t ∈ VescWheelController.controlTrajectory cfg s0 inputs,
        t.error_integ ≤ s0.error_integ) ∧
    (0 ≤ cfg.duty_limiter →
      cfg.ki * s0.error_integ ≤ cfg.i_clamp →
      (∀ t ∈ VescWheelController.controlTrajectory cfg s0 inputs,
        t.error < 0 ∧
          VescWheelController.rawDutyOf cfg t < -cfg.duty_limiter) →
      ∀ t ∈ VescWheelController.controlTrajectory cfg s0 inputs,
        s0.error_integ ≤ t.error_integ) :=
  ⟨fun hlow hsat => antiwindup_run_pos cfg s0 inputs haw hki hic hlow hsat,
   fun hdl hup hsat =>
     antiwindup_run_neg cfg s0 inputs haw hki hic hdl hup hsat⟩

/-- Evaluation of `toUInt16` at the concrete count −5. -/
theorem toUInt16_evalNeg5 : toUInt16 ((-5 : ℤ) : ℚ) = 65531 := by
  rw [toUInt16_intCast]; decide

/-- A configuration with anti-windup enabled used to exercise a saturated
tick (kp = ki = 1, kd = 0, iClamp = 100, dutyLimit = 1, rate = 1,
pole pairs = 7). -/
def awConfig : Config :=
  { kp := 1, ki := 1, kd := 0, i_clamp := 100, duty_limiter := 1,
    antiwindup := true, control_rate := 1, num_motor_pole_pairs := 7 }

/-- The single tick `(targetVelocity 0, currentPulse −5)` from `initState`
under `awConfig` ends with error 5 > 0 and raw duty 10 beyond the limit. -/
theorem awWitness_saturated :
    ∀ t ∈ VescWheelController.controlTrajectory awConfig initState
        [(0, ((-5 : ℤ) : ℚ))],
      0 < t.error ∧
        awConfig.duty_limiter < VescWheelController.rawDutyOf awConfig t := by
  intro t ht
  rw [controlTrajectory_cons] at ht
  have hsing : t = (VescWheelController.control awConfig initState 0
      ((-5 : ℤ) : ℚ) false).2 := by
    rcases List.mem_cons.mp ht with h | h
    · exact h
    · exact absurd h (List.not_mem_nil t)
  subst hsing
  constructor
  · simp only [VescWheelController.control, counterTD, counterTDUpdate,
      toUInt16_evalNeg5, someTDState, initState, awConfig, limitTargetPulse,
      wrapTargetPulse, LONG_MAX_D, LONG_MIN_D, M_PI]
    norm_num [List.getD]
  · simp only [VescWheelController.rawDutyOf, VescWheelController.control,
      counterTD, counterTDUpdate, toUInt16_evalNeg5, someTDState, initState,
      awConfig, limitTargetPulse, wrapTargetPulse, LONG_MAX_D, LONG_MIN_D,
      M_PI]
    norm_num [List.getD]

/-- The single tick `(targetVelocity 0, currentPulse 5)` from `initState`
under `awConfig` ends with error −5 < 0 and raw duty −10 below the
negative limit. -/
theorem awWitness_neg_saturated :
    ∀ t ∈ VescWheelController.controlTrajectory awConfig initState
        [(0, ((5 : ℤ) : ℚ))],
      t.error < 0 ∧
        VescWheelController.rawDutyOf awConfig t <
          -awConfig.duty_limiter := by
  intro t ht
  rw [controlTrajectory_cons] at ht
  have hsing : t = (VescWheelController.control awConfig initState 0
      ((5 : ℤ) : ℚ) false).2 := by
    rcases List.mem_cons.mp ht with h | h
    · exact h
    · exact absurd h (List.not_mem_nil t)
  subst hsing
  constructor
  · simp only [VescWheelController.control, counterTD, counterTDUpdate,
      toUInt16_eval5, someTDState, initState, awConfig, limitTargetPulse,
      wrapTargetPulse, LONG_MAX_D, LONG_MIN_D, M_PI]
    norm_num [List.getD]
  · simp only [VescWheelController.rawDutyOf, VescWheelController.control,
      counterTD, counterTDUpdate, toUInt16_eval5, someTDState, initState,
      awConfig, limitTargetPulse, wrapTargetPulse, LONG_MAX_D, LONG_MIN_D,
      M_PI]
    norm_num [List.getD]

/-- Witness for `antiwindup_containment`: both directions exercised, the
positive one on the saturated run `(0, −5)` and the negative one on the
mirrored run `(0, 5)`. -/
theorem antiwindup_containment_witness :
    (awConfig.antiwindup = true ∧ 0 < awConfig.ki ∧ 0 ≤ awConfig.i_clamp ∧
      -awConfig.i_clamp ≤ awConfig.ki * initState.error_integ ∧
      (∀ t ∈ VescWheelController.controlTrajectory awConfig initState
          [(0, ((-5 : ℤ) : ℚ))],
        0 < t.error ∧
          awConfig.duty_limiter <
            VescWheelController.rawDutyOf awConfig t) ∧
      0 ≤ awConfig.duty_limiter ∧
      awConfig.ki * initState.error_integ ≤ awConfig.i_clamp ∧
      ∀ t ∈ VescWheelController.controlTrajectory awConfig initState
          [(0, ((5 : ℤ) : ℚ))],
        t.error < 0 ∧
          VescWheelController.rawDutyOf awConfig t <
            -awConfig.duty_limiter) ∧
    (∀ t ∈ VescWheelController.controlTrajectory awConfig initState
        [(0, ((-5 : ℤ) : ℚ))],
      t.error_integ ≤ initState.error_integ) ∧
    ∀ t ∈ VescWheelController.controlTrajectory awConfig initState
        [(0, ((5 : ℤ) : ℚ))],
      initState.error_integ ≤ t.error_integ :=
  ⟨⟨rfl, by norm_num [awConfig], by norm_num [awConfig],
    by norm_num [awConfig, initState], awWitness_saturated,
    by norm_num [awConfig], by norm_num [awConfig, initState],
    awWitness_neg_saturated⟩,
   (antiwindup_containment awConfig initState [(0, ((-5 : ℤ) : ℚ))] rfl
       (by norm_num [awConfig]) (by norm_num [awConfig])).1
     (by norm_num [awConfig, initState]) awWitness_saturated,
   (antiwindup_containment awConfig initState [(0, ((5 : ℤ) : ℚ))] rfl
       (by norm_num [awConfig]) (by norm_num [awConfig])).2
     (by norm_num [awConfig]) (by norm_num [awConfig, initState])
     awWitness_neg_saturated⟩

/-- Witness for `counterTD_dwell_derivative`: change to 5, dwell three
ticks, change by Δ = 6 → derivative 6/3 = 2. -/
theorem counterTD_dwell_derivative_witness :
    (1 ≤ 3 ∧ 3 ≤ 100 ∧
      someTDState.log_counts.getD 0 0 ≠ toUInt16 ((5 : ℤ) : ℚ) ∧
      someTDState.log_dwells ≠ [] ∧
      toUInt16 ((11 : ℤ) : ℚ) ≠ toUInt16 ((5 : ℤ) : ℚ) ∧
      (toUInt16 ((11 : ℤ) : ℚ) : ℤ) - (toUInt16 ((5 : ℤ) : ℚ) : ℤ) =
        (6 : ℤ) ∧
      |(6 : ℤ)| ≤ 100 * 3) ∧
    (counterTD (counterTDFold someTDState
        (List.replicate 3 (((5 : ℤ) : ℚ), false))) ((11 : ℤ) : ℚ)
        false).1 = ((6 : ℤ) : ℚ) / ((3 : ℕ) : ℚ) :=
  ⟨⟨by norm_num, by norm_num,
    by rw [toUInt16_intCast]; decide,
    by decide,
    by rw [toUInt16_intCast, toUInt16_intCast]; decide,
    by rw [toUInt16_intCast, toUInt16_intCast]; decide,
    by decide⟩,
   counterTD_dwell_derivative someTDState _ _ 3 6 (by norm_num) (by norm_num)
     (by rw [toUInt16_intCast]; decide) (by decide)
     (by rw [toUInt16_intCast, toUInt16_intCast]; decide)
     (by rw [toUInt16_intCast, toUInt16_intCast]; decide) (by decide)⟩

/-- C1 counterexample: with the end-to-end configuration, the first call
`control(targetVelocity = 10, currentPulse = 1000, reset = true)` does not
emit duty 0: the reset zeroes the position error and the integral, but the
velocity-error term `kd · (targetVelocity − velocitySens)` survives, so the
emitted duty is `kd · 10 = 0.025`. -/
theorem control_first_call_duty_nonzero :
    (VescWheelController.control testConfig initState 10 ((1000 : ℤ) : ℚ)
        true).1 ≠ 0 := by
  norm_num [VescWheelController.control, counterTD, counterTDUpdate, toUInt16_intCast,
    testConfig, initState, someTDState, limitTargetPulse, wrapTargetPulse,
    antiwindupAdjust, iClampAdjust, clampDuty, LONG_MAX_D, LONG_MIN_D,
    List.getD, List.replicate]

/-- C1 (corrected): for every prior controller state, the call
`control(targetVelocity = 10, currentPulse = 1000, reset = true)` under the
end-to-end configuration emits duty exactly `kd · targetVelocity =
0.0025 · 10 = 1/40` (error and integral are zero after the resync, and the
freshly reset estimator reports velocity 0, leaving only the
velocity-error term). -/
theorem control_first_call_duty (s : VescWheelState) :
    (VescWheelController.control testConfig s 10 ((1000 : ℤ) : ℚ) true).1 =
      1/40 := by
  norm_num [VescWheelController.control, counterTD, counterTDUpdate, toUInt16_intCast,
    testConfig, limitTargetPulse, wrapTargetPulse, antiwindupAdjust,
    iClampAdjust, clampDuty, LONG_MAX_D, LONG_MIN_D, List.getD,
    List.replicate]
